import Mathlib

/-!
Shallow embedding of the trade-dashboard pipeline (src/trade_dashboard.py)
and verification of its specification claims.

Modelling conventions:
* A timestamp is a `Nat`: seconds since the epoch (1970-01-01 00:00:00,
  a Thursday).  `pandas.NaT` is `Option.none`.
* A calendar date is a `Nat`: the day number (timestamp / 86400).
* A timedelta (`pd.to_timedelta` result) is an `Int` number of seconds.
* Numbers (`pd.to_numeric` results, PnL) are `Rat`; `NaN` is `Option.none`.
* A raw CSV cell is abstracted as a `RawValue` carrying the outcome of each
  pandas coercion (`to_datetime`, `to_numeric`, `to_timedelta`, all with
  errors="coerce"): an unparseable cell has `none` for that coercion.
* A pandas DataFrame is a list of rows plus one presence flag per
  recognized column (columns are present or absent for the whole table).
* A raised Python exception (e.g. `KeyError`) is `Except.error`.
-/

/-- Calendar day number of a timestamp (pandas `.dt.date`). -/
def dateOf (t : Nat) : Nat := t / 86400

/-- Hour of day of a timestamp (pandas `.dt.hour`). -/
def hourOf (t : Nat) : Nat := t % 86400 / 3600

/-- The fixed weekday ordering used at line 125 of the source. -/
def weekday_order : List String :=
  ["Monday", "Tuesday", "Wednesday", "Thursday", "Friday", "Saturday", "Sunday"]

/-- Weekday name of a day number (pandas `.dt.day_name()`).
Day 0 (1970-01-01) is a Thursday, index 3 in `weekday_order`. -/
def dayName (d : Nat) : String := weekday_order.getD ((d + 3) % 7) ""

/-- A raw CSV cell, abstracted by the outcome of each pandas coercion.
`isNull` records whether the cell is missing/NA in the raw file. -/
structure RawValue where
  isNull : Bool
  asTimestamp : Option Nat
  asNumber : Option Rat
  asTimedelta : Option Int
  deriving DecidableEq, Repr

/-- A raw NA cell. -/
def RawValue.na : RawValue := ⟨true, none, none, none⟩

/-- A raw cell holding unparseable text. -/
def RawValue.text : RawValue := ⟨false, none, none, none⟩

/-- A raw cell holding a plain number. -/
def RawValue.num (q : Rat) : RawValue := ⟨false, none, some q, none⟩

/-- A raw cell holding a timestamp encoding. -/
def RawValue.time (t : Nat) : RawValue := ⟨false, some t, none, none⟩

/-- A raw cell holding a duration encoding. -/
def RawValue.dur (s : Int) : RawValue := ⟨false, none, none, some s⟩

/-- One raw input row.  A field is only meaningful when the corresponding
column-presence flag of the table is set. -/
structure RawRow where
  contractName : Option String := none
  enteredAt : RawValue := RawValue.na
  exitedAt : RawValue := RawValue.na
  tradeDay : RawValue := RawValue.na
  tradeDuration : RawValue := RawValue.na
  pnl : RawValue := RawValue.na
  fees : RawValue := RawValue.na
  deriving DecidableEq, Repr

/-- A raw input table: per-column presence flags plus the rows. -/
structure RawTable where
  hasContractName : Bool := false
  hasEnteredAt : Bool := false
  hasExitedAt : Bool := false
  hasTradeDay : Bool := false
  hasTradeDuration : Bool := false
  hasPnL : Bool := false
  hasFees : Bool := false
  rows : List RawRow := []
  deriving DecidableEq, Repr

/-- One normalized/derived row, as produced by `load_csv`
(lines 13-35 of the source). -/
structure Row where
  contractName : Option String := none
  enteredAt : Option Nat := none
  exitedAt : Option Nat := none
  tradeDay : Option Nat := none
  tradeDuration : Option Int := none
  durationMinutes : Option Rat := none
  entryHour : Option Nat := none
  entryDate : Option Nat := none
  daysSinceFirstTrade : Option Int := none
  pnl : Option Rat := none
  fees : RawValue := RawValue.na
  deriving DecidableEq, Repr

/-- A normalized dataset: the column-presence flags plus the rows. -/
structure Dataset where
  hasContractName : Bool := false
  hasEnteredAt : Bool := false
  hasExitedAt : Bool := false
  hasTradeDay : Bool := false
  hasTradeDuration : Bool := false
  hasPnL : Bool := false
  hasFees : Bool := false
  rows : List Row := []
  deriving DecidableEq, Repr

/-- Per-row type coercions and per-row feature engineering of `load_csv`
(lines 17-26 and 33-34): `to_datetime(errors="coerce")` on
EnteredAt/ExitedAt/TradeDay when present, `to_timedelta` on TradeDuration
plus DurationMinutes, EntryHour/EntryDate from EnteredAt, `to_numeric` on
PnL.  The Fees column is never touched by the source and passes through
unparsed. -/
def parseRow (tbl : RawTable) (rr : RawRow) : Row :=
  let en : Option Nat := if tbl.hasEnteredAt then rr.enteredAt.asTimestamp else none
  { contractName := if tbl.hasContractName then rr.contractName else none
    enteredAt := en
    exitedAt := if tbl.hasExitedAt then rr.exitedAt.asTimestamp else none
    tradeDay := if tbl.hasTradeDay then rr.tradeDay.asTimestamp else none
    tradeDuration := if tbl.hasTradeDuration then rr.tradeDuration.asTimedelta else none
    durationMinutes :=
      if tbl.hasTradeDuration then
        rr.tradeDuration.asTimedelta.map (fun s => (s : Rat) / 60)
      else none
    entryHour := en.map hourOf
    entryDate := en.map dateOf
    daysSinceFirstTrade := none
    pnl := if tbl.hasPnL then rr.pnl.asNumber else none
    fees := rr.fees }

/-- Baseline date (lines 27-30 / line 70): the minimum `TradeDay` calendar
date over non-null entries when the TradeDay column is present and has any
non-null value; otherwise the minimum `EnteredAt` calendar date over
non-null entries (`NaT`, i.e. `none`, when there are none). -/
def baselineFrom (hasTradeDay : Bool) (rows : List Row) : Option Nat :=
  if hasTradeDay && rows.any (fun r => r.tradeDay.isSome) then
    ((rows.filterMap (fun r => r.tradeDay)).map dateOf).min?
  else
    ((rows.filterMap (fun r => r.enteredAt)).map dateOf).min?

/-- `load_csv` (lines 13-35): coerce the recognized columns, derive the
per-row features, compute the baseline date and `DaysSinceFirstTrade`.
Lines 30-31 access `df["EnteredAt"]` unguarded, so the whole function
raises `KeyError` whenever the EnteredAt column is absent. -/
def load_csv (tbl : RawTable) : Except String Dataset :=
  let rows0 := tbl.rows.map (parseRow tbl)
  if tbl.hasEnteredAt then
    let b := baselineFrom tbl.hasTradeDay rows0
    Except.ok
      { hasContractName := tbl.hasContractName
        hasEnteredAt := tbl.hasEnteredAt
        hasExitedAt := tbl.hasExitedAt
        hasTradeDay := tbl.hasTradeDay
        hasTradeDuration := tbl.hasTradeDuration
        hasPnL := tbl.hasPnL
        hasFees := tbl.hasFees
        rows := rows0.map (fun r =>
          { r with daysSinceFirstTrade :=
              match r.entryDate, b with
              | some d, some bd => some ((d : Int) - (bd : Int))
              | _, _ => none }) }
  else
    Except.error "KeyError: EnteredAt"

/-- Baseline date recomputed for the KPI bar (line 70). -/
def baseline (ds : Dataset) : Option Nat := baselineFrom ds.hasTradeDay ds.rows

/-- Days Opened KPI (line 72): `(today - baseline).days`, NaN when the
baseline is NaT. -/
def days_opened (today : Nat) (ds : Dataset) : Option Int :=
  (baseline ds).map (fun b => (today : Int) - (b : Int))

/-- Total Trades KPI (line 74): the raw row count. -/
def total_trades (ds : Dataset) : Nat := ds.rows.length

/-- The boolean series `df["PnL"] > 0` (line 77): NaN compares as False. -/
def pnlPositive (r : Row) : Bool := r.pnl.elim false (fun p => decide (0 < p))

/-- Win Rate KPI (lines 75-79): `(df["PnL"] > 0).sum()` over
`df["PnL"].notna().sum()` times 100; NaN when the PnL column is absent or
has no non-null value. -/
def win_rate (ds : Dataset) : Option Rat :=
  if ds.hasPnL then
    let wins : Nat := (ds.rows.map pnlPositive).count true
    let nonnull : Nat := (ds.rows.map (fun r => r.pnl.isSome)).count true
    if 0 < nonnull then some ((wins : Rat) / (nonnull : Rat) * 100) else none
  else none

/-- Cumulative PnL KPI (lines 80-82): `df["PnL"].sum()`, which skips NaN
(and is 0 on an all-NaN column); NaN when the PnL column is absent. -/
def cum_pnl (ds : Dataset) : Option Rat :=
  if ds.hasPnL then some ((ds.rows.filterMap (fun r => r.pnl)).sum) else none

/-- The scalar KPI bundle of the KPI bar (lines 68-88). -/
structure KPIBundle where
  daysOpened : Option Int
  totalTrades : Nat
  winRate : Option Rat
  cumulativePnl : Option Rat
  deriving DecidableEq, Repr

/-- The four scalar KPIs, computed (lines 70-82) from the unfiltered
dataset. -/
def computeKPIs (today : Nat) (ds : Dataset) : KPIBundle :=
  { daysOpened := days_opened today ds
    totalTrades := total_trades ds
    winRate := win_rate ds
    cumulativePnl := cum_pnl ds }

/-- The date mask of line 99:
`(df["EnteredAt"].dt.date >= start) & (df["EnteredAt"].dt.date <= end)`.
A NaT `EnteredAt` compares as False on both sides. -/
def keepByDate (s e : Nat) (r : Row) : Bool :=
  match r.enteredAt with
  | some t => decide (s ≤ dateOf t) && decide (dateOf t ≤ e)
  | none => false

/-- The contract membership test of line 107:
`dff["ContractName"].isin(chosen_contracts)`; NaN is never a member. -/
def contractIn (chosen : List String) (r : Row) : Bool :=
  match r.contractName with
  | some c => chosen.contains c
  | none => false

/-- The Filter Engine (lines 97-107): build the date mask from
`EnteredAt`, keep the masked rows, then — only when the chosen-contract
list is non-empty — keep rows whose `ContractName` is among the chosen. -/
def filterDataset (ds : Dataset) (s e : Nat) (chosen : List String) : Dataset :=
  let mask := ds.rows.map (keepByDate s e)
  let dff := ((ds.rows.zip mask).filter (fun p => p.2)).map (fun p => p.1)
  let dff2 := if chosen.isEmpty then dff else dff.filter (contractIn chosen)
  { ds with rows := dff2 }

/-- `min_date` (line 94): the calendar date of the minimum `EnteredAt`
timestamp when the column is present with a non-null value, else today. -/
def minObservedDate (today : Nat) (ds : Dataset) : Nat :=
  if ds.hasEnteredAt && ds.rows.any (fun r => r.enteredAt.isSome) then
    ((ds.rows.filterMap (fun r => r.enteredAt)).min?.map dateOf).getD today
  else today

/-- `max_date` (line 95): the calendar date of the maximum `EnteredAt`
timestamp when the column is present with a non-null value, else today. -/
def maxObservedDate (today : Nat) (ds : Dataset) : Nat :=
  if ds.hasEnteredAt && ds.rows.any (fun r => r.enteredAt.isSome) then
    ((ds.rows.filterMap (fun r => r.enteredAt)).max?.map dateOf).getD today
  else today

/-- The whole dashboard computation on one dataset: the KPI bar is
computed from the unfiltered dataset (lines 70-82), the filtered view
from the filter parameters (lines 97-107). -/
def runDashboard (today : Nat) (ds : Dataset) (s e : Nat) (chosen : List String) :
    KPIBundle × Dataset :=
  (computeKPIs today ds, filterDataset ds s e chosen)

/-- The weekday key of a row (line 124): `tmp["TradeDay"].dt.day_name()`,
NaN for a NaT `TradeDay`. -/
def wkOf (r : Row) : Option String := r.tradeDay.map (fun t => dayName (dateOf t))

/-- Group mean of PnL (pandas `.mean()`): skips NaN, NaN on a group with
no non-null value. -/
def meanPnl (rows : List Row) : Option Rat :=
  let v := rows.filterMap (fun r => r.pnl)
  if v.isEmpty then none else some (v.sum / (v.length : Rat))

/-- The weekday aggregate `g1` (lines 122-127): the weekday series is made
Categorical over the fixed Monday→Sunday category list, then grouped with
`dropna=False`; every category yields one group (mean NaN when empty) in
category order, and the NaN key forms one extra trailing group when some
row has a NaT `TradeDay`. -/
def avgPnlByWeekday (ds : Dataset) : Option (List (Option String × Option Rat)) :=
  if ds.hasPnL && ds.hasTradeDay then
    let base := weekday_order.map (fun nm =>
      (some nm, meanPnl (ds.rows.filter (fun r => wkOf r == some nm))))
    some (if ds.rows.any (fun r => (wkOf r).isNone) then
            base ++ [((none : Option String),
                      meanPnl (ds.rows.filter (fun r => (wkOf r).isNone)))]
          else base)
  else none

/-- One entry of the per-contract win-rate table: contract key (the null
key is its own group), trade count, win rate. -/
abbrev WrcEntry := Option String × Nat × Rat

/-- Comparison used to order the per-contract table: descending by trade
count. -/
def wrcGE (a b : WrcEntry) : Prop := b.2.1 ≤ a.2.1

instance : DecidableRel wrcGE := fun a b => Nat.decLe b.2.1 a.2.1

instance : IsTotal WrcEntry wrcGE := ⟨fun a b => (Nat.le_total a.2.1 b.2.1).symm⟩

instance : IsTrans WrcEntry wrcGE := ⟨fun _ _ _ h1 h2 => Nat.le_trans h2 h1⟩

/-- Modelled from the spec: the `winRateByContract` aggregate is described
in the spec (§4.4) but absent from src/trade_dashboard.py (the spec notes
the source has several observed variants; this output comes from a variant
not in src/).  Per contract (a null `contractName` forming its own group):
the trade count and the win rate (mean of `pnl > 0` times 100, with a NaN
`pnl` comparing as False); sorted descending by trade count; truncated to
the top 15 contracts; available only when `pnl` and `contractName` are
both present. -/
def winRateByContract (ds : Dataset) : Option (List WrcEntry) :=
  if ds.hasPnL && ds.hasContractName then
    let keys := (ds.rows.map (fun r => r.contractName)).dedup
    let entries : List WrcEntry := keys.map (fun k =>
      let grp := ds.rows.filter (fun r => r.contractName == k)
      let wins := (grp.map pnlPositive).count true
      (k, grp.length, (wins : Rat) / (grp.length : Rat) * 100))
    some ((entries.insertionSort wrcGE).take 15)
  else none

/-! ### Spec-as-written definitions

These definitions follow the words of the specification, for comparison
against the code-derived definitions above. -/

/-- Spec as written: `netPnl` = `pnl - fees` when both are present (the
fees value parsed as a number), else `pnl` when only `pnl` is present,
else null. -/
def specNetPnl (hasFees : Bool) (r : Row) : Option Rat :=
  match r.pnl, (if hasFees then r.fees.asNumber else none) with
  | some p, some f => some (p - f)
  | some p, none => some p
  | none, _ => none

/-- Spec as written: `cumulativePnl` = sum of `netPnl` across all rows,
nulls contributing 0; undefined only when the `pnl` field is absent from
the schema. -/
def specCumulativePnl (ds : Dataset) : Option Rat :=
  if ds.hasPnL then
    some ((ds.rows.map (fun r => (specNetPnl ds.hasFees r).getD 0)).sum)
  else none

/-- Spec as written: the Filter Engine's date test — the effective date
column is `tradeDay` when that column is present, else `enteredAt`; a row
is kept iff the effective value is non-null and its calendar date lies in
`[s, e]` inclusive. -/
def specKeepsByDate (hasTradeDay : Bool) (s e : Nat) (r : Row) : Bool :=
  match (if hasTradeDay then r.tradeDay else r.enteredAt) with
  | some t => decide (s ≤ dateOf t) && decide (dateOf t ≤ e)
  | none => false

/-- Spec as written: `tradeDurationSeconds` = `exitedAt - enteredAt` in
seconds when both are present, else null. -/
def specTradeDurationSeconds (r : Row) : Option Int :=
  match r.exitedAt, r.enteredAt with
  | some x, some en => some ((x : Int) - (en : Int))
  | _, _ => none

/-! ### Helper lemmas -/

/-- Filtering through an explicit boolean mask built from the same list is
ordinary list filtering. -/
theorem mask_filter_eq_filter (f : Row → Bool) :
    ∀ l : List Row, ((l.zip (l.map f)).filter (fun p => p.2)).map (fun p => p.1)
      = l.filter f := by
  intro l
  induction l with
  | nil => rfl
  | cons a l ih =>
    by_cases h : f a = true
    · simp [List.filter_cons, h, ih]
    · simp only [Bool.not_eq_true] at h
      simp [List.filter_cons, h, ih]

/-- Counting `true` in a mapped boolean series is the length of the
filtered list. -/
theorem count_true_map_eq_length_filter (f : Row → Bool) :
    ∀ l : List Row, (l.map f).count true = (l.filter f).length := by
  intro l
  induction l with
  | nil => rfl
  | cons a l ih =>
    by_cases h : f a = true
    · simp [List.count_cons, List.filter_cons, h, ih]
    · simp only [Bool.not_eq_true] at h
      simp [List.count_cons, List.filter_cons, h, ih]

/-- `List.min?` of a list of naturals bounds every member from below. -/
theorem min?_le_of_mem : ∀ {l : List Nat} {m a : Nat},
    l.min? = some m → a ∈ l → m ≤ a := by
  intro l
  induction l with
  | nil => intro m a _ ha; cases ha
  | cons x l ih =>
    intro m a hm ha
    rw [List.min?_cons] at hm
    cases hmin : l.min? with
    | none =>
      rw [List.min?_eq_none_iff] at hmin
      subst hmin
      simp at hm ha
      simp [hm, ha]
    | some m0 =>
      rw [hmin] at hm
      simp only [Option.elim] at hm
      cases hm
      rcases List.mem_cons.1 ha with h | h
      · subst h; exact Nat.min_le_left _ _
      · exact Nat.le_trans (Nat.min_le_right _ _) (ih hmin h)

/-- `List.max?` of a list of naturals bounds every member from above. -/
theorem le_max?_of_mem : ∀ {l : List Nat} {m a : Nat},
    l.max? = some m → a ∈ l → a ≤ m := by
  intro l
  induction l with
  | nil => intro m a _ ha; cases ha
  | cons x l ih =>
    intro m a hm ha
    rw [List.max?_cons] at hm
    cases hmax : l.max? with
    | none =>
      rw [List.max?_eq_none_iff] at hmax
      subst hmax
      simp at hm ha
      simp [hm, ha]
    | some m0 =>
      rw [hmax] at hm
      simp only [Option.elim] at hm
      cases hm
      rcases List.mem_cons.1 ha with h | h
      · subst h; exact Nat.le_max_left _ _
      · exact Nat.le_trans (ih hmax h) (Nat.le_max_right _ _)

/-- `dateOf` is monotone. -/
theorem dateOf_mono {a b : Nat} (h : a ≤ b) : dateOf a ≤ dateOf b :=
  Nat.div_le_div_right h

/-- Summing the non-null PnL values equals summing with nulls as 0. -/
theorem sum_filterMap_pnl :
    ∀ l : List Row, (l.filterMap (fun r => r.pnl)).sum
      = (l.map (fun r => r.pnl.getD 0)).sum := by
  intro l
  induction l with
  | nil => rfl
  | cons a l ih =>
    cases h : a.pnl with
    | none => simp [List.filterMap_cons, h, ih]
    | some p => simp [List.filterMap_cons, h, ih]

/-- Unfolding of the date mask test. -/
theorem keepByDate_eq_true_iff (s e : Nat) (r : Row) :
    keepByDate s e r = true ↔
      ∃ t, r.enteredAt = some t ∧ s ≤ dateOf t ∧ dateOf t ≤ e := by
  cases h : r.enteredAt with
  | none => simp [keepByDate, h]
  | some t => simp [keepByDate, h]

/-- Unfolding of the contract membership test. -/
theorem contractIn_eq_true_iff (chosen : List String) (r : Row) :
    contractIn chosen r = true ↔
      ∃ c, r.contractName = some c ∧ c ∈ chosen := by
  cases h : r.contractName with
  | none => simp [contractIn, h]
  | some c => simp [contractIn, h]

/-- Zipping a mapped list with its preimage list. -/
theorem zip_map_self (f : RawRow → Row) :
    ∀ l : List RawRow, (l.map f).zip l = l.map (fun x => (f x, x)) := by
  intro l
  induction l with
  | nil => rfl
  | cons a l ih => simp [ih]

/-- Comparing with a `none` key is the `isNone` test. -/
theorem beq_none_eq_isNone (o : Option String) : (o == (none : Option String)) = o.isNone := by
  cases o <;> rfl

/-- The weekday key is null exactly when `tradeDay` is. -/
theorem wkOf_isNone (r : Row) : (wkOf r).isNone = r.tradeDay.isNone := by
  cases h : r.tradeDay <;> simp [wkOf, h]

/-! ### Concrete example data -/

/-- C1 counterexample dataset: one row with `pnl = 100` and a parseable
`fees = 2`. -/
def c1ds : Dataset :=
  { hasPnL := true, hasFees := true,
    rows := [{ pnl := some 100, fees := RawValue.num 2 }] }

/-- C1 witness dataset. -/
def c1wds : Dataset :=
  { hasPnL := true,
    rows := [{ pnl := some 5 }, { pnl := none }, { pnl := some (-2) }] }

/-- C4 failing input: a raw table with neither an EnteredAt nor a TradeDay
column. -/
def c4tbl : RawTable :=
  { hasPnL := true, rows := [{ pnl := RawValue.num 1 }] }

/-- C7 counterexample table: both timestamps present and 60 seconds apart,
no TradeDuration column. -/
def c7tbl : RawTable :=
  { hasEnteredAt := true, hasExitedAt := true,
    rows := [{ enteredAt := RawValue.time 0, exitedAt := RawValue.time 60 }] }

/-- C9 witness dataset. -/
def c9wds : Dataset :=
  { hasPnL := true,
    rows := [{ pnl := some 3 }, { pnl := some (-1) }, { pnl := none }] }

/-- C2 counterexample row: the trade-day date (day 10) differs from the
entry date (day 2). -/
def c2row : Row := { enteredAt := some 172800, tradeDay := some 864000 }

/-- C2 counterexample dataset: the TradeDay column is present. -/
def c2ds : Dataset := { hasEnteredAt := true, hasTradeDay := true, rows := [c2row] }

/-- C5 counterexample dataset: one row with a null `EnteredAt`. -/
def c5ds : Dataset :=
  { hasEnteredAt := true,
    rows := [{ enteredAt := some 172800 }, { enteredAt := none }] }

/-- C5 witness dataset: every row has a non-null `EnteredAt`. -/
def c5wds : Dataset :=
  { hasEnteredAt := true,
    rows := [{ enteredAt := some 100 }, { enteredAt := some 200000 }] }

/-- C8 counterexample table (a): no EnteredAt and no TradeDay column. -/
def c8errTbl : RawTable :=
  { hasExitedAt := true, rows := [{ exitedAt := RawValue.time 10 }] }

/-- C8 counterexample table (b): a Fees column holding unparseable text. -/
def c8feesTbl : RawTable :=
  { hasEnteredAt := true, hasFees := true,
    rows := [{ enteredAt := RawValue.time 0, fees := RawValue.text }] }

/-- C6 counterexample dataset: one row with a null `TradeDay`. -/
def c6ds : Dataset :=
  { hasPnL := true, hasTradeDay := true,
    rows := [{ tradeDay := none, pnl := some 1 }] }

/-- C6 witness dataset. -/
def c6wds : Dataset :=
  { hasPnL := true, hasTradeDay := true,
    rows := [{ tradeDay := some 0, pnl := some 2 },
             { tradeDay := some 86400, pnl := some (-1) }] }

/-- C3 witness dataset. -/
def c3ds : Dataset :=
  { hasPnL := true, hasContractName := true,
    rows := [{ contractName := some "ES", pnl := some 10 },
             { contractName := some "NQ", pnl := some (-5) },
             { contractName := some "ES", pnl := none }] }

/-- C8 witness table. -/
def c8wtbl : RawTable :=
  { hasEnteredAt := true, hasExitedAt := true, hasPnL := true, hasFees := true,
    rows := [{ enteredAt := RawValue.time 90000, exitedAt := RawValue.text,
               pnl := RawValue.text, fees := RawValue.num 7 },
             { enteredAt := RawValue.na, exitedAt := RawValue.time 5,
               pnl := RawValue.num 3, fees := RawValue.na }] }

/-! ### Claim theorems -/

/-- C1, counterexample: the claim says `cumulativePnl` sums `netPnl`
(= `pnl - fees` when both present).  On a dataset with one row with
`pnl = 100` and `fees = 2` the spec formula gives 98, but the code
(line 80, `df["PnL"].sum()`) gives 100: fees are never subtracted. -/
theorem cum_pnl_ignores_fees_counterexample :
    cum_pnl c1ds = some 100 ∧ specCumulativePnl c1ds = some 98 ∧
      cum_pnl c1ds ≠ specCumulativePnl c1ds := by
  refine ⟨?_, ?_, ?_⟩ <;>
    simp [cum_pnl, specCumulativePnl, specNetPnl, c1ds, RawValue.num] <;> norm_num

/-- C1, amended: the `cumulativePnl` KPI equals the sum over all rows of
`pnl` (not `netPnl`; the code never subtracts fees), with null `pnl`
contributing 0 to the sum instead of aborting it; it is defined whenever
the PnL column is present in the schema. -/
theorem cum_pnl_eq_sum_pnl (ds : Dataset) (h : ds.hasPnL = true) :
    cum_pnl ds = some ((ds.rows.map (fun r => r.pnl.getD 0)).sum) := by
  unfold cum_pnl
  rw [if_pos h, sum_filterMap_pnl]

/-- C1 witness: the amended theorem evaluated on a concrete dataset. -/
theorem cum_pnl_eq_sum_pnl_witness :
    cum_pnl c1wds = some ((c1wds.rows.map (fun r => r.pnl.getD 0)).sum) :=
  cum_pnl_eq_sum_pnl c1wds rfl

/-- C4: the claim says that when no row has a non-null `tradeDay` and no
`enteredAt` exists, the baseline date is null and the dependent values are
undefined *rather than the computation failing*.  The code instead crashes:
on a table with neither column, `df["EnteredAt"]` at lines 30-31 raises
`KeyError`, so `load_csv` fails instead of producing a null baseline. -/
theorem load_csv_keyerror_without_enteredAt :
    load_csv c4tbl = Except.error "KeyError: EnteredAt" := rfl

/-- C7, counterexample: the claim says the derived trade duration equals
`exitedAt - enteredAt` in seconds.  On a row entered at t=0 and exited at
t=60 (no TradeDuration column) the spec formula gives 60 seconds, but the
code derives no duration at all: `DurationMinutes` (lines 20-22) comes
only from the separate raw `TradeDuration` column and is null here. -/
theorem duration_not_from_timestamps_counterexample :
    ∃ ds, load_csv c7tbl = Except.ok ds ∧
      ds.rows.map specTradeDurationSeconds = [some 60] ∧
      ds.rows.map (fun r => r.durationMinutes) = [none] := by
  refine ⟨(load_csv c7tbl).toOption.getD {}, rfl, ?_, ?_⟩ <;> rfl

/-- C7, amended: for every row of a loaded dataset, the derived
`DurationMinutes` equals the parsed `TradeDuration` column value converted
to minutes (`total_seconds() / 60`) when that column is present and the
value parseable, and is null otherwise; the code never derives a duration
from `exitedAt - enteredAt`. -/
theorem durationMinutes_from_tradeDuration (tbl : RawTable) (ds : Dataset)
    (hok : load_csv tbl = Except.ok ds) :
    ∀ r ∈ ds.rows, r.durationMinutes = r.tradeDuration.map (fun s => (s : Rat) / 60) := by
  intro r hr
  unfold load_csv at hok
  by_cases he : tbl.hasEnteredAt = true
  · simp only [he, if_pos] at hok
    cases hok
    simp only [List.mem_map] at hr
    obtain ⟨r0, hr0, rfl⟩ := hr
    obtain ⟨rr, _, rfl⟩ := hr0
    by_cases hd : tbl.hasTradeDuration = true
    · simp [parseRow, hd]
    · simp only [Bool.not_eq_true] at hd
      simp [parseRow, hd]
  · simp only [Bool.not_eq_true] at he
    simp [he] at hok

/-- C7 witness dataset: what `load_csv` produces on a one-row table whose
TradeDuration column holds 90 seconds. -/
def c7wtbl : RawTable :=
  { hasEnteredAt := true, hasTradeDuration := true,
    rows := [{ enteredAt := RawValue.time 0, tradeDuration := RawValue.dur 90 }] }

/-- The single row `load_csv` produces from `c7wtbl`. -/
def c7wrow : Row := (((load_csv c7wtbl).toOption.getD {}).rows).headD {}

/-- C7 witness: the amended theorem applied to a concrete loaded row. -/
theorem durationMinutes_from_tradeDuration_witness :
    c7wrow.durationMinutes = c7wrow.tradeDuration.map (fun s => (s : Rat) / 60) :=
  durationMinutes_from_tradeDuration c7wtbl ((load_csv c7wtbl).toOption.getD {}) rfl
    c7wrow (List.mem_singleton.mpr rfl)

/-- C9: with the PnL column present, the Win Rate KPI (lines 75-79) equals
the count of rows with `pnl > 0` divided by the count of rows with
non-null `pnl`, times 100, and is undefined when no row has a non-null
`pnl`. -/
theorem win_rate_formula (ds : Dataset) (h : ds.hasPnL = true) :
    win_rate ds =
      if 0 < (ds.rows.filter (fun r => r.pnl.isSome)).length then
        some (((ds.rows.filter pnlPositive).length : Rat)
          / ((ds.rows.filter (fun r => r.pnl.isSome)).length : Rat) * 100)
      else none := by
  unfold win_rate
  rw [if_pos h, count_true_map_eq_length_filter pnlPositive,
    count_true_map_eq_length_filter (fun r => r.pnl.isSome)]

/-- C9 witness: the win-rate formula evaluated on a concrete dataset
(1 win among 2 non-null PnL rows gives 50%). -/
theorem win_rate_formula_witness :
    win_rate c9wds =
      (if 0 < (c9wds.rows.filter (fun r => r.pnl.isSome)).length then
        some (((c9wds.rows.filter pnlPositive).length : Rat)
          / ((c9wds.rows.filter (fun r => r.pnl.isSome)).length : Rat) * 100)
      else none) :=
  win_rate_formula c9wds rfl

/-- C10: the four scalar KPIs are computed from the unfiltered dataset
only — for any two choices of the date-range and contract-selection
parameters, the KPI bundle of the dashboard run is identical. -/
theorem kpis_independent_of_filter (today : Nat) (ds : Dataset)
    (s1 e1 : Nat) (ch1 : List String) (s2 e2 : Nat) (ch2 : List String) :
    (runDashboard today ds s1 e1 ch1).1 = (runDashboard today ds s2 e2 ch2).1 := rfl

/-- C2, counterexample: the claim says the effective date column is
`tradeDay` when that column is present.  On a dataset whose TradeDay
column is present, with a row traded on day 10 but entered on day 2, the
spec predicate keeps the row for the interval [10, 10], yet the code
(line 99 always masks on `df["EnteredAt"].dt.date`) drops it. -/
theorem filter_ignores_tradeDay_counterexample :
    specKeepsByDate c2ds.hasTradeDay 10 10 c2row = true ∧
      (filterDataset c2ds 10 10 []).rows = [] := by
  refine ⟨by decide, by decide⟩

/-- C2, amended: for every dataset and inclusive date interval, the
Filter Engine keeps a row iff its `enteredAt` value (always `enteredAt`,
even when a `tradeDay` column is present) is non-null and its calendar
date lies within `[s, e]` inclusive — and, when the contract selection is
non-empty, its `contractName` is one of the chosen contracts. -/
theorem filter_keeps_iff (ds : Dataset) (s e : Nat) (chosen : List String) (r : Row) :
    r ∈ (filterDataset ds s e chosen).rows ↔
      r ∈ ds.rows ∧ (∃ t, r.enteredAt = some t ∧ s ≤ dateOf t ∧ dateOf t ≤ e) ∧
        (chosen = [] ∨ ∃ c, r.contractName = some c ∧ c ∈ chosen) := by
  simp only [filterDataset, mask_filter_eq_filter]
  by_cases hch : chosen.isEmpty
  · have hnil : chosen = [] := List.isEmpty_iff.mp hch
    subst hnil
    simp [List.mem_filter, keepByDate_eq_true_iff]
  · have hne : ¬chosen = [] := fun h => hch (by simp [h])
    have hfalse : chosen.isEmpty = false := by
      cases h : chosen.isEmpty
      · rfl
      · exact absurd h hch
    simp only [hfalse, Bool.false_eq_true, if_false, List.filter_filter,
      List.mem_filter, Bool.and_eq_true, keepByDate_eq_true_iff,
      contractIn_eq_true_iff]
    tauto

/-- C5, counterexample: the claim says filtering with the full observed
date range and an empty contract set is an identity.  On a dataset where
one row has a null `EnteredAt`, that row is dropped by the date mask even
over the full observed range, so the filter output differs from the
input. -/
theorem full_range_filter_not_identity_counterexample :
    filterDataset c5ds (minObservedDate 0 c5ds) (maxObservedDate 0 c5ds) [] ≠ c5ds := by
  decide

/-- C5, amended: on a dataset in which every row has a non-null
`enteredAt`, filtering with the full observed date range (lines 94-95)
and an empty contract-selection set returns a dataset equal to the input;
the empty contract set applies no contract filtering at all.  (Rows with
a null `enteredAt` would be dropped.) -/
theorem filter_full_range_identity (today : Nat) (ds : Dataset)
    (hE : ds.hasEnteredAt = true)
    (hall : ∀ r ∈ ds.rows, r.enteredAt.isSome) :
    filterDataset ds (minObservedDate today ds) (maxObservedDate today ds) [] = ds := by
  have hrows : ∀ r ∈ ds.rows,
      keepByDate (minObservedDate today ds) (maxObservedDate today ds) r = true := by
    intro r hr
    obtain ⟨t, ht⟩ := Option.isSome_iff_exists.mp (hall r hr)
    have hmem : t ∈ ds.rows.filterMap (fun r => r.enteredAt) :=
      List.mem_filterMap.mpr ⟨r, hr, ht⟩
    have hany : ds.rows.any (fun r => r.enteredAt.isSome) = true :=
      List.any_eq_true.mpr ⟨r, hr, hall r hr⟩
    cases hmin : (ds.rows.filterMap (fun r => r.enteredAt)).min? with
    | none =>
      rw [List.min?_eq_none_iff] at hmin
      rw [hmin] at hmem
      cases hmem
    | some tmin =>
      cases hmax : (ds.rows.filterMap (fun r => r.enteredAt)).max? with
      | none =>
        rw [List.max?_eq_none_iff] at hmax
        rw [hmax] at hmem
        cases hmem
      | some tmax =>
        have h1 : dateOf tmin ≤ dateOf t := dateOf_mono (min?_le_of_mem hmin hmem)
        have h2 : dateOf t ≤ dateOf tmax := dateOf_mono (le_max?_of_mem hmax hmem)
        unfold minObservedDate maxObservedDate
        rw [hE]
        simp [hany, hmin, hmax, keepByDate, ht, h1, h2]
  simp only [filterDataset, mask_filter_eq_filter]
  simp [List.filter_eq_self.mpr hrows]

/-- C5 witness: the amended theorem on a concrete all-non-null dataset. -/
theorem filter_full_range_identity_witness :
    filterDataset c5wds (minObservedDate 0 c5wds) (maxObservedDate 0 c5wds) [] = c5wds :=
  filter_full_range_identity 0 c5wds rfl (by decide)

/-- C8, counterexample: the claim says normalization never raises and
that unparseable values in a present `fees` column become null.  (a) On a
table with no EnteredAt column, `load_csv` raises `KeyError` instead of
returning a dataset.  (b) On a table whose Fees column holds unparseable
text, the value passes through unparsed and non-null: lines 13-35 never
touch a Fees column. -/
theorem normalizer_counterexample :
    load_csv c8errTbl = Except.error "KeyError: EnteredAt" ∧
      (∃ ds, load_csv c8feesTbl = Except.ok ds ∧
        ds.rows.map (fun r => r.fees) = [RawValue.text] ∧
        RawValue.text.isNull = false ∧ RawValue.text.asNumber = none) := by
  exact ⟨rfl, ⟨(load_csv c8feesTbl).toOption.getD {}, rfl, rfl, rfl, rfl⟩⟩

/-- C8, amended: for every raw table in which the EnteredAt column is
present, `load_csv` succeeds with a dataset of the same row count and row
order; per row, each present timestamp column (EnteredAt, ExitedAt,
TradeDay) holds the `to_datetime(errors="coerce")` result (null when
unparseable), PnL holds the `to_numeric(errors="coerce")` result, and the
Fees column is passed through entirely unparsed.  No row is ever dropped.
(When the EnteredAt column is absent, `load_csv` raises instead.) -/
theorem load_csv_normalizes (tbl : RawTable) (hE : tbl.hasEnteredAt = true) :
    ∃ ds, load_csv tbl = Except.ok ds ∧
      ds.rows.length = tbl.rows.length ∧
      ∀ p ∈ ds.rows.zip tbl.rows,
        p.1.enteredAt = p.2.enteredAt.asTimestamp ∧
        p.1.exitedAt = (if tbl.hasExitedAt then p.2.exitedAt.asTimestamp else none) ∧
        p.1.tradeDay = (if tbl.hasTradeDay then p.2.tradeDay.asTimestamp else none) ∧
        p.1.pnl = (if tbl.hasPnL then p.2.pnl.asNumber else none) ∧
        p.1.fees = p.2.fees := by
  unfold load_csv
  rw [hE]
  simp only [if_true]
  refine ⟨_, rfl, by simp, ?_⟩
  intro p hp
  rw [List.map_map, zip_map_self] at hp
  obtain ⟨rr, _, rfl⟩ := List.mem_map.mp hp
  simp only [Function.comp]
  refine ⟨?_, ?_, ?_, ?_, ?_⟩ <;> simp [parseRow, hE]

/-- C6, counterexample: the claim says the weekday aggregate has exactly
7 entries regardless of the data.  On a dataset with one row whose
`TradeDay` is null, `groupby(..., dropna=False)` adds the null key as an
eighth trailing group, so the aggregate has 8 entries. -/
theorem weekday_aggregate_eight_entries_counterexample :
    (avgPnlByWeekday c6ds).map List.length = some 8 ∧
      (avgPnlByWeekday c6ds).map List.length ≠ some 7 := by
  constructor <;> decide

/-- C6, amended: for a dataset with `pnl` and `tradeDay` available, the
weekday aggregate lists the 7 weekdays in the fixed Monday→Sunday order
regardless of which weekdays occur (weekdays with no rows getting an
undefined mean, not zero), followed by exactly one extra null-key entry
when some row has a null `tradeDay`; when every row has a non-null
`tradeDay` it has exactly 7 entries. -/
theorem avgPnlByWeekday_shape (ds : Dataset)
    (h1 : ds.hasPnL = true) (h2 : ds.hasTradeDay = true) :
    ∃ l, avgPnlByWeekday ds = some l ∧
      l.map Prod.fst = weekday_order.map some ++
        (if ds.rows.any (fun r => r.tradeDay.isNone) then [(none : Option String)] else []) ∧
      (∀ p ∈ l, p.2 = meanPnl (ds.rows.filter (fun r => wkOf r == p.1))) ∧
      (ds.rows.all (fun r => r.tradeDay.isSome) = true → l.length = 7) := by
  unfold avgPnlByWeekday
  rw [h1, h2]
  simp only [Bool.and_self, if_true]
  have hcond : ds.rows.any (fun r => (wkOf r).isNone)
      = ds.rows.any (fun r => r.tradeDay.isNone) := by
    simp only [wkOf_isNone]
  rw [hcond]
  cases hc : ds.rows.any (fun r => r.tradeDay.isNone) with
  | false =>
    simp only [Bool.false_eq_true, if_false, List.append_nil]
    refine ⟨_, rfl, by simp [List.map_map], ?_, ?_⟩
    · intro p hp
      obtain ⟨nm, _, rfl⟩ := List.mem_map.mp hp
      rfl
    · intro _
      simp [weekday_order]
  | true =>
    simp only [if_true]
    refine ⟨_, rfl, ?_, ?_, ?_⟩
    · simp [List.map_map]
    · intro p hp
      rcases List.mem_append.mp hp with hp | hp
      · obtain ⟨nm, _, rfl⟩ := List.mem_map.mp hp
        rfl
      · have hpe := List.mem_singleton.mp hp
        subst hpe
        simp only []
        congr 1
        exact List.filter_congr (fun r _ => (beq_none_eq_isNone (wkOf r)).symm)
    · intro hall
      exfalso
      obtain ⟨r, hr, hnone⟩ := List.any_eq_true.mp hc
      have := List.all_eq_true.mp hall r hr
      rw [Option.isNone_iff_eq_none] at hnone
      rw [hnone] at this
      cases this

/-- C6 witness: the amended theorem on a concrete all-non-null dataset. -/
theorem avgPnlByWeekday_shape_witness :
    ∃ l, avgPnlByWeekday c6wds = some l ∧
      l.map Prod.fst = weekday_order.map some ++
        (if c6wds.rows.any (fun r => r.tradeDay.isNone) then [(none : Option String)] else []) ∧
      (∀ p ∈ l, p.2 = meanPnl (c6wds.rows.filter (fun r => wkOf r == p.1))) ∧
      (c6wds.rows.all (fun r => r.tradeDay.isSome) = true → l.length = 7) :=
  avgPnlByWeekday_shape c6wds rfl rfl

/-- C3 (the aggregate is absent from src/ and modelled from the spec):
for every dataset with `pnl` and `contractName` available, the
`winRateByContract` output reports per contract the trade count and the
win rate (mean of `pnl > 0` times 100), is sorted descending by trade
count, and never contains more than 15 entries. -/
theorem winRateByContract_spec (ds : Dataset)
    (h1 : ds.hasPnL = true) (h2 : ds.hasContractName = true) :
    ∃ l, winRateByContract ds = some l ∧
      l.length ≤ 15 ∧ List.Sorted wrcGE l ∧
      ∀ p ∈ l, p.2.1 = (ds.rows.filter (fun r => r.contractName == p.1)).length ∧
        p.2.2 = (((ds.rows.filter (fun r => r.contractName == p.1)).map pnlPositive).count true : Rat)
          / (p.2.1 : Rat) * 100 := by
  unfold winRateByContract
  rw [h1, h2]
  simp only [Bool.and_self, if_true]
  refine ⟨_, rfl, ?_, ?_, ?_⟩
  · exact List.length_take_le _ _
  · exact List.Pairwise.sublist (List.take_sublist _ _) (List.sorted_insertionSort wrcGE _)
  · intro p hp
    have hp1 : p ∈ List.insertionSort wrcGE _ := (List.take_sublist _ _).subset hp
    have hp2 := (List.mem_insertionSort wrcGE).mp hp1
    obtain ⟨k, _, rfl⟩ := List.mem_map.mp hp2
    exact ⟨rfl, rfl⟩

/-- C3 witness: the spec-modelled aggregate on a concrete dataset. -/
theorem winRateByContract_spec_witness :
    ∃ l, winRateByContract c3ds = some l ∧
      l.length ≤ 15 ∧ List.Sorted wrcGE l ∧
      ∀ p ∈ l, p.2.1 = (c3ds.rows.filter (fun r => r.contractName == p.1)).length ∧
        p.2.2 = (((c3ds.rows.filter (fun r => r.contractName == p.1)).map pnlPositive).count true : Rat)
          / (p.2.1 : Rat) * 100 :=
  winRateByContract_spec c3ds rfl rfl

/-- C8 witness: the amended theorem on a concrete two-row table with
unparseable and null cells. -/
theorem load_csv_normalizes_witness :
    ∃ ds, load_csv c8wtbl = Except.ok ds ∧
      ds.rows.length = c8wtbl.rows.length ∧
      ∀ p ∈ ds.rows.zip c8wtbl.rows,
        p.1.enteredAt = p.2.enteredAt.asTimestamp ∧
        p.1.exitedAt = (if c8wtbl.hasExitedAt then p.2.exitedAt.asTimestamp else none) ∧
        p.1.tradeDay = (if c8wtbl.hasTradeDay then p.2.tradeDay.asTimestamp else none) ∧
        p.1.pnl = (if c8wtbl.hasPnL then p.2.pnl.asNumber else none) ∧
        p.1.fees = p.2.fees :=
  load_csv_normalizes c8wtbl rfl
